import Mathlib

/-! # Verification of the Task Orchestration and Agent Selection Engine

Shallow embedding of the core of the agentcy-one backend:
`src/agents/orchestrator.ts` (agent pool, selection, orchestration loop),
`src/agents/knowledge/seeker.ts` (knowledge retrieval and synthesis), and the
`submitTask` / status-query boundary (`src/routes/tasks.ts`).

External collaborators (the AI text-generation provider, the Wikipedia lookup,
the context builder, the task processor, the task queue and the entropy source
behind `Math.random()`) are modelled as explicit oracle parameters, so every
definition is an executable total function and every run of the engine is a
pure computation over an explicit state.

Numbers that the TypeScript source handles as floating-point `number`s
(curiosity levels, learning rates, scores, confidences) are embedded as exact
rationals; every literal appearing in the source is exactly representable, and
the source performs no operation whose float rounding differs from exact
arithmetic on the values reachable here. -/

namespace Agentcy

/-! ## JavaScript string primitives

`String.prototype.split(" ")` splits on each single space character, keeping
empty fragments; `String.prototype.toLowerCase` lowercases character-wise;
`String.prototype.includes(pat)` is substring containment, true for the empty
pattern. These are modelled structurally over the character list of the
string so that they compute in the kernel. -/

def splitCh (sep : Char) : List Char → List (List Char)
  | [] => [[]]
  | c :: rest =>
    let r := splitCh sep rest
    if c = sep then [] :: r
    else
      match r with
      | [] => [[c]]
      | t :: ts => (c :: t) :: ts

/-- JS `s.split(" ")`: split on every single space, keeping empty fragments. -/
def jsSplitSpace (s : String) : List String :=
  (splitCh ' ' s.data).map List.asString

/-- JS `s.toLowerCase()` (character-wise, as used on ASCII prompts). -/
def jsToLower (s : String) : String :=
  (s.data.map Char.toLower).asString

/-- Bool-valued containment of `pat` in `hay` (as character lists). -/
def containsSub (pat : List Char) : List Char → Bool
  | [] => pat.isPrefixOf ([] : List Char)
  | c :: rest => pat.isPrefixOf (c :: rest) || containsSub pat rest

/-- JS `s.includes(pat)`: substring containment, true for the empty pattern. -/
def jsIncludes (s pat : String) : Bool :=
  containsSub pat.data s.data

/-! ## Knowledge seeker (`src/agents/knowledge/seeker.ts`)

A raw retrieval record as produced by `performWebSearch`, `searchWikipedia`
and `generateAIInsights` (a plain JS object with `title`, `content`,
`source`, and optionally `url` and `confidence`). -/

structure Source where
  title : String
  content : String
  source : String
  url : Option String
  confidence : Option ℚ
deriving DecidableEq

/-- A synthesized knowledge record (`KnowledgeItem` in `seeker.ts`). The
`new Date()` timestamp is modelled as a `Nat` clock value supplied by the
oracle. -/
structure KnowledgeItem where
  query : String
  topic : String
  content : String
  source : String
  confidence : ℚ
  timestamp : Nat
  relatedTopics : List String
deriving DecidableEq

/-- The Wikipedia REST summary response consumed by `searchWikipedia`:
`response.data.title`, `response.data.extract` (absent or empty extract is
modelled as `none`, matching the JS truthiness test `response.data.extract`),
and `response.data.content_urls?.desktop?.page`. -/
structure WikiSummary where
  title : String
  extract : Option String
  pageUrl : Option String
deriving DecidableEq

/-- Oracle for the external calls reachable from the seeker. Methods of
`AIProvider` (in the sources) that wrap their model call in their own
`try/catch` and return a fallback on error are total here
(`extractRelatedTopics` and `extractMainTopic` return `[]` resp. the query on
error inside `AIProvider` itself, so the caller only ever sees a value);
`synthesizeInformation` and `generateInsights` have no internal catch and may
reject, which the `Except` models. `wikipedia` models the `axios.get` call:
`Except.error` is a network failure, `Except.ok` the parsed response. `now`
models the wall clock read by `new Date()`. -/
structure AIOracle where
  now : Nat
  generateInsights : String → Except String String
  synthesizeInformation : String → List Source → Except String String
  extractRelatedTopics : String → List String
  extractMainTopic : String → String
  wikipedia : String → Except String WikiSummary

/-- `performWebSearch` from `seeker.ts`: a pure placeholder returning one
fixed-shape record for the query. -/
def performWebSearch (query : String) : List Source :=
  [{ title := "Search result for: " ++ query,
     content := "Relevant information about " ++ query ++ " from web sources.",
     source := "Web Search",
     url := some "https://example.com",
     confidence := none }]

/-- `searchWeb` from `seeker.ts`: top 3 results of the web search (the
`try/catch` is vacuous because `performWebSearch` cannot throw). -/
def searchWeb (query : String) : List Source :=
  (performWebSearch query).take 3

/-- `searchWikipedia` from `seeker.ts`: on a successful response with a
truthy `extract`, one Wikipedia record; on a missing extract or any error
(caught inside the function) no records. -/
def searchWikipedia (ai : AIOracle) (query : String) : List Source :=
  match ai.wikipedia query with
  | Except.error _ => []
  | Except.ok resp =>
    match resp.extract with
    | some ext =>
      [{ title := resp.title, content := ext, source := "Wikipedia",
         url := resp.pageUrl, confidence := none }]
    | none => []

/-- `generateAIInsights` from `seeker.ts`: an AI-analysis record tagged with
baseline confidence 0.8, or `null` (here `none`) if the provider call throws
(caught inside the function). -/
def generateAIInsights (ai : AIOracle) (query : String) : Option Source :=
  match ai.generateInsights query with
  | Except.ok insights =>
    some { title := "AI Insights: " ++ query, content := insights,
           source := "AI Analysis", url := none, confidence := some 0.8 }
  | Except.error _ => none

/-- The filter `sources.filter((source) => source && source.content)` from
`synthesizeKnowledge`: drop `null` entries and entries with falsy (empty)
content. -/
def validOf (sources : List (Option Source)) : List Source :=
  (sources.filterMap id).filter (fun s => s.content ≠ "")

/-- `calculateConfidence` from `seeker.ts`. -/
def calculateConfidence (sources : List Source) : ℚ :=
  if sources.length = 0 then 0.1
  else if sources.length = 1 then 0.6
  else if sources.length = 2 then 0.8
  else 0.95

/-- `synthesizeKnowledge` from `seeker.ts`: filter the valid sources, run the
AI synthesis (the only call here that can reject), then extract related
topics and a main topic and assemble the `KnowledgeItem`. -/
def synthesizeKnowledge (ai : AIOracle) (query : String)
    (sources : List (Option Source)) : Except String KnowledgeItem := do
  let validSources := validOf sources
  let synthesizedContent ← ai.synthesizeInformation query validSources
  let relatedTopics := ai.extractRelatedTopics synthesizedContent
  let topic := ai.extractMainTopic query
  pure { query := query, topic := topic, content := synthesizedContent,
         source := "Multi-source synthesis",
         confidence := calculateConfidence validSources,
         timestamp := ai.now, relatedTopics := relatedTopics }

/-- The body of the per-query `try` block in `seekKnowledge`: gather the
three source groups (`[...webResults, ...wikiResults, aiInsights]`, where the
last entry may be `null`) and synthesize. -/
def processOneQuery (ai : AIOracle) (query : String) : Except String KnowledgeItem :=
  let webResults := searchWeb query
  let wikiResults := searchWikipedia ai query
  let aiInsights := generateAIInsights ai query
  synthesizeKnowledge ai query (webResults.map some ++ wikiResults.map some ++ [aiInsights])

/-- `seekKnowledge` from `seeker.ts`: process the queries in order; a failure
on one query is caught (and logged), that query contributes no item, and the
loop continues with the remaining queries. -/
def seekKnowledge (ai : AIOracle) : List String → List KnowledgeItem
  | [] => []
  | query :: rest =>
    match processOneQuery ai query with
    | Except.ok item => item :: seekKnowledge ai rest
    | Except.error _ => seekKnowledge ai rest

/-- The step function of the specification for confidence scoring, stated on
the bare source count. -/
def confStep (n : Nat) : ℚ :=
  if n = 0 then 0.1 else if n = 1 then 0.6 else if n = 2 then 0.8 else 0.95

/-- The full list of (possibly null) sources gathered for one query. -/
def gatheredSources (ai : AIOracle) (query : String) : List (Option Source) :=
  (searchWeb query).map some ++ (searchWikipedia ai query).map some ++
    [generateAIInsights ai query]

/-- Number of valid retrieved sources for one query. -/
def numValidSources (ai : AIOracle) (query : String) : Nat :=
  (validOf (gatheredSources ai query)).length

/-! ## Orchestrator data model (`src/agents/orchestrator.ts`) -/

inductive AgentStatus
  | idle
  | busy
  | learning
deriving DecidableEq

inductive TaskStatus
  | pending
  | processing
  | completed
  | failed
deriving DecidableEq

/-- Modelled from the spec: `AgentPersonality` (`src/agents/personality/traits.ts`
is not part of the provided sources). Per spec section 3, a personality is an
immutable tuple of three trait tags with no behavior of its own. -/
structure AgentPersonality where
  traitA : String
  traitB : String
  traitC : String
deriving DecidableEq

/-- An entry of the private knowledge mapping of an agent: the merged item spread
together with an ingestion timestamp and a defaulted confidence
(`{...item, timestamp: new Date(), confidence: item.confidence || 0.8}`). -/
structure KBRecord where
  item : KnowledgeItem
  timestamp : Nat
  confidence : ℚ
deriving DecidableEq

/-- The `Agent` record of `orchestrator.ts`. The `knowledgeBase` JS `Map` is
modelled as an insertion-ordered association list. -/
structure Agent where
  id : String
  name : String
  personality : AgentPersonality
  specialization : List String
  status : AgentStatus
  currentTask : Option String
  knowledgeBase : List (String × KBRecord)
  curiosityLevel : ℚ
  learningRate : ℚ
deriving DecidableEq

/-- The `AgentTask` record of `orchestrator.ts`. The caller-supplied `context`
object and the timestamps are opaque to the core and modelled as a `String`
and `Nat`s. -/
structure AgentTask where
  id : String
  userId : String
  prompt : String
  context : String
  priority : Int
  status : TaskStatus
  createdAt : Nat
  updatedAt : Nat
deriving DecidableEq

/-- A persisted row of the `tasks` table, with exactly the columns the core
writes: the `INSERT` in `submitTask` supplies `id, user_id, prompt, context,
status, created_at, updated_at`, and the `UPDATE` in `storeTaskResult`
supplies `result, status, updated_at`. The `priority` column of the schema is
never written by the core (it takes its SQL `DEFAULT`), so it is not part of
the persisted state the core controls. -/
structure TaskRow where
  id : String
  user_id : String
  prompt : String
  context : String
  result : Option String
  status : TaskStatus
  created_at : Nat
  updated_at : Nat
deriving DecidableEq

/-- The column list of the `INSERT INTO tasks ...` statement in `submitTask`,
transcribed from the SQL text. -/
def tasksInsertColumns : List String :=
  ["id", "user_id", "prompt", "context", "status", "created_at", "updated_at"]

/-- Events emitted on the socket room of the submitting user `user-${userId}`:
`task-progress` (whose payload carries the fixed status string "completed",
the result and the agent name) and `task-error` (whose payload carries the
error message). -/
inductive SocketEvent
  | taskProgress (userId taskId result agentName : String)
  | taskError (userId taskId errMsg : String)
deriving DecidableEq

/-- The context object returned by `ContextBuilder.buildContext`. Only the
`userInterests` field is consumed by the orchestrator
(`context.userInterests?.join(", ")`); `none` models an absent field. -/
structure Ctx where
  userInterests : Option (List String)

/-- The mutable state driven by the orchestrator: the agent pool, the task
queue, the persisted `tasks` table, the per-user context store writes, and
the log of emitted socket events. -/
structure OrchState where
  agents : List Agent
  queue : List AgentTask
  tasksDb : List TaskRow
  ctxStore : List (String × List String)
  events : List SocketEvent

/-- Oracle for the external calls of the orchestrator in one processing attempt.
`buildContext` models `ContextBuilder.buildContext` (`src/agents/context/
builder.ts` is not part of the provided sources; per spec section 4.3 it
reads the persisted user history and may fail on an infrastructure error).
`extractConcepts` and `extractInterests` model the `AIProvider` methods of
the same names, which catch their own errors and return `[]`, hence are
total. `processResult` models `TaskProcessor.processTask` (not part of the
provided sources; per spec section 4.5 step 8 it runs the text-generation
capability and may throw). Each entry of `curiosityDraws` models the outcome
of one evaluation of `Math.random() < agent.curiosityLevel` (the entropy
source is external); an exhausted list models draws that fail the test. -/
structure OrchEnv where
  ai : AIOracle
  buildContext : String → String → Except String Ctx
  extractConcepts : String → List String
  curiosityDraws : List Bool
  processResult : AgentTask → Ctx → List KnowledgeItem → Agent → Except String String
  extractInterests : String → String → List String
  now : Nat

/-! ## Agent scoring and selection -/

/-- `calculateAgentScore` from `orchestrator.ts`: base score from curiosity
and learning rate, plus 0.5 for every specialization tag that contains some
token of the lowercased prompt split on spaces. -/
def calculateAgentScore (agent : Agent) (task : AgentTask) : ℚ :=
  let base : ℚ := 0 + agent.curiosityLevel * 0.3 + agent.learningRate * 0.2
  let taskKeywords := jsSplitSpace (jsToLower task.prompt)
  agent.specialization.foldl
    (fun score spec =>
      if taskKeywords.any (fun keyword => jsIncludes spec keyword) then score + 0.5
      else score)
    base

/-- The match count from the specification: the number of specialization
tags for which some whitespace-delimited lowercase token of the task prompt
is a substring of the tag. -/
def specializationMatchCount (agent : Agent) (task : AgentTask) : Nat :=
  agent.specialization.countP
    (fun spec => (jsSplitSpace (jsToLower task.prompt)).any (fun keyword => jsIncludes spec keyword))

/-- Stable descending insertion by score: the new element goes in front of
the first list element whose score is not larger. ECMA-262 requires
`Array.prototype.sort` to be stable, and the comparator
`(a, b) => b.score - a.score` orders by descending score, so the sorted
array is exactly a stable descending reordering; any stable descending sort
is a faithful model of it. -/
def insertByScore (x : Agent × ℚ) : List (Agent × ℚ) → List (Agent × ℚ)
  | [] => [x]
  | y :: ys => if y.2 ≤ x.2 then x :: y :: ys else y :: insertByScore x ys

/-- Stable descending sort by score (see `insertByScore`). -/
def sortByScoreDesc : List (Agent × ℚ) → List (Agent × ℚ)
  | [] => []
  | x :: xs => insertByScore x (sortByScoreDesc xs)

/-- `selectAgent` from `orchestrator.ts`: filter the idle agents, score them,
sort descending by score, and return the first of the sorted list (or `null`
if no agent is idle). -/
def selectAgent (agents : List Agent) (task : AgentTask) : Option Agent :=
  let availableAgents := agents.filter (fun agent => agent.status = AgentStatus.idle)
  if availableAgents.length = 0 then none
  else
    let scoredAgents := availableAgents.map (fun agent => (agent, calculateAgentScore agent task))
    (sortByScoreDesc scoredAgents).head?.map Prod.fst

/-- The selection rule of the specification: the first element of the pool
iteration order among those attaining the maximal score. -/
def firstMaxScored : List (Agent × ℚ) → Option (Agent × ℚ)
  | [] => none
  | x :: xs =>
    match firstMaxScored xs with
    | none => some x
    | some y => if y.2 ≤ x.2 then some x else some y

/-! ## Knowledge ingestion and curiosity exploration -/

/-- `generateKnowledgeQueries` from `orchestrator.ts`: extract concepts from
the prompt (never throws: `AIProvider.extractConcepts` catches its own errors
and returns `[]`), then build three query variants per concept. When
`context.userInterests` is absent, the JS template literal renders
`undefined`. -/
def generateKnowledgeQueries (env : OrchEnv) (prompt : String) (context : Ctx) : List String :=
  let concepts := env.extractConcepts prompt
  let interestsText :=
    match context.userInterests with
    | some interests => String.intercalate ", " interests
    | none => "undefined"
  concepts.flatMap (fun concept =>
    ["What is " ++ concept ++ "?",
     "How does " ++ concept ++ " relate to " ++ interestsText ++ "?",
     "Latest developments in " ++ concept])

/-- The key under which a knowledge item is stored:
`item.topic || item.query` (a falsy, i.e. empty, topic falls back to the
query). -/
def keyOf (item : KnowledgeItem) : String :=
  if item.topic = "" then item.query else item.topic

/-- The stored record `{...item, timestamp: new Date(), confidence:
item.confidence || 0.8}`: a falsy (zero) confidence defaults to 0.8. -/
def kbRecordOf (now : Nat) (item : KnowledgeItem) : KBRecord :=
  { item := item, timestamp := now,
    confidence := if item.confidence = 0 then 0.8 else item.confidence }

/-- JS `Map.set`: replace the value at an existing key in place, otherwise
append the new binding (insertion order preserved). -/
def kbSet (kb : List (String × KBRecord)) (key : String) (record : KBRecord) :
    List (String × KBRecord) :=
  if kb.any (fun p => p.1 = key) then
    kb.map (fun p => if p.1 = key then (key, record) else p)
  else kb ++ [(key, record)]

/-- The knowledge-merging half of `updateAgentKnowledge`: store each item in
the knowledge base of the agent. -/
def mergeKnowledge (now : Nat) (agent : Agent) (knowledge : List KnowledgeItem) : Agent :=
  { agent with
    knowledgeBase :=
      knowledge.foldl (fun kb item => kbSet kb (keyOf item) (kbRecordOf now item))
        agent.knowledgeBase }

/-- `updateAgentKnowledge` together with `triggerCuriousExploration` from
`orchestrator.ts`: merge the knowledge, then, when the curiosity draw
(`Math.random() < agent.curiosityLevel`, modelled by the head of the Bool
draw stream) succeeds, set the agent to `learning`, seek one follow-up query
per ingested item, recursively ingest the additional knowledge (which may
trigger further exploration, consuming further draws), and finally set the
agent to `idle` — note: `idle`, not back to `busy`, even though this runs in
the middle of a processing attempt and `currentTask` is still set.

In the source `triggerCuriousExploration` is launched without `await`; this
model realizes the interleaving in which every exploration completes before
the task processor of the enclosing attempt returns, which is a reachable
schedule. The returned triple is the final agent value, the intermediate
agent values observable at the suspension points inside the exploration, and
the unconsumed draws. -/
def updateAgentKnowledge (ai : AIOracle) :
    List Bool → Agent → List KnowledgeItem → Agent × List Agent × List Bool
  | draws, agent, knowledge =>
    let merged := mergeKnowledge ai.now agent knowledge
    match draws with
    | [] => (merged, [], [])
    | shouldExplore :: restDraws =>
      if shouldExplore then
        let exploring := { merged with status := AgentStatus.learning }
        let followUpQueries :=
          knowledge.map (fun item =>
            "Tell me more about " ++ item.topic ++ " and its implications")
        let additionalKnowledge := seekKnowledge ai followUpQueries
        let rec_ := updateAgentKnowledge ai restDraws exploring additionalKnowledge
        let explored := { rec_.1 with status := AgentStatus.idle }
        (explored, exploring :: rec_.2.1 ++ [explored], rec_.2.2)
      else (merged, [], restDraws)

/-! ## The processing attempt -/

/-- Replace the agents with the given id by the given value (in the source
the pool is a `Map` keyed by id and the selected agent is mutated in
place). -/
def setAgent (agents : List Agent) (agentId : String) (value : Agent) : List Agent :=
  agents.map (fun a => if a.id = agentId then value else a)

/-- The `catch` block of `processTask`: log, then emit exactly one
`task-error` event with the error message on the channel of the submitting user.
It does not release the selected agent and does not touch the
persisted row. -/
def catchBlock (st : OrchState) (task : AgentTask) (msg : String) : OrchState :=
  { st with events := st.events ++ [SocketEvent.taskError task.userId task.id msg] }

/-- `storeTaskResult` from `orchestrator.ts`:
`UPDATE tasks SET result = $1, status = $2 (the string "completed"), updated_at = NOW()
WHERE id = $3`. -/
def storeTaskResult (db : List TaskRow) (taskId : String) (result : String) (now : Nat) :
    List TaskRow :=
  db.map (fun row =>
    if row.id = taskId then
      { row with result := some result, status := TaskStatus.completed, updated_at := now }
    else row)

/-- `processTask` from `orchestrator.ts`, one processing attempt on a
dequeued task. Returns the final state together with the list of states
observable at the `await` suspension points of the attempt (including the
initial and final state). Every error raised after agent selection is caught
by the single `catch` block (`catchBlock`), which emits one `task-error`
event and nothing else. -/
def processTask (env : OrchEnv) (task : AgentTask) (st : OrchState) :
    OrchState × List OrchState :=
  match selectAgent st.agents task with
  | none =>
    -- `throw new Error("No suitable agent available")`, caught below
    (catchBlock st task "No suitable agent available", [st])
  | some selected =>
    let selBusy := { selected with status := AgentStatus.busy, currentTask := some task.id }
    let st1 := { st with agents := setAgent st.agents selected.id selBusy }
    match env.buildContext task.userId task.prompt with
    | Except.error e => (catchBlock st1 task e, [st, st1])
    | Except.ok context =>
      let knowledgeQueries := generateKnowledgeQueries env task.prompt context
      let gatheredKnowledge := seekKnowledge env.ai knowledgeQueries
      let upd := updateAgentKnowledge env.ai env.curiosityDraws selBusy gatheredKnowledge
      let kPools := upd.2.1.map (fun a => { st with agents := setAgent st.agents selected.id a })
      let st2 := { st with agents := setAgent st.agents selected.id upd.1 }
      match env.processResult task context gatheredKnowledge upd.1 with
      | Except.error e => (catchBlock st2 task e, [st, st1] ++ kPools ++ [st2])
      | Except.ok result =>
        let st3 := { st2 with tasksDb := storeTaskResult st2.tasksDb task.id result env.now }
        let interests := env.extractInterests task.prompt result
        let st4 := { st3 with ctxStore := st3.ctxStore ++ [(task.userId, interests)] }
        let st5 := { st4 with
          events := st4.events ++
            [SocketEvent.taskProgress task.userId task.id result selBusy.name] }
        let agentDone := { upd.1 with status := AgentStatus.idle, currentTask := none }
        let st6 := { st5 with agents := setAgent st5.agents selected.id agentDone }
        (st6, [st, st1] ++ kPools ++ [st2, st3, st4, st5, st6])

/-- Modelled from the spec: the task queue (`src/queue/taskQueue.ts` is not
part of the provided sources). Spec section 4.1: `dequeue` returns the next
task in FIFO order and removes it from future visibility. One tick of the
processing loop (`startProcessingLoop`): dequeue at most one task; if one
was dequeued, run `processTask` on it. Nothing ever re-enqueues the dequeued
task. -/
def tick (env : OrchEnv) (st : OrchState) : OrchState × List OrchState :=
  match st.queue with
  | [] => (st, [st])
  | task :: rest => processTask env task { st with queue := rest }

/-! ## Boundary operations -/

/-- `submitTask` from `orchestrator.ts`: build the task record with
`priority: 1` and `status: "pending"` hard-coded, enqueue it (spec section
4.1: `enqueue` appends in FIFO order; the queue implementation is not part
of the provided sources), insert the row into the `tasks` table (without the
`priority` column, see `tasksInsertColumns`), and return the task id. The
generated id `task-${Date.now()}-${random}` is supplied as the `newTaskId`
parameter since it draws on the clock and the entropy source. -/
def submitTask (env : OrchEnv) (userId prompt context : String) (newTaskId : String)
    (st : OrchState) : String × OrchState :=
  let task : AgentTask :=
    { id := newTaskId, userId := userId, prompt := prompt, context := context,
      priority := 1, status := TaskStatus.pending,
      createdAt := env.now, updatedAt := env.now }
  let afterQueue := { st with queue := st.queue ++ [task] }
  let row : TaskRow :=
    { id := task.id, user_id := task.userId, prompt := task.prompt,
      context := task.context, result := none, status := task.status,
      created_at := task.createdAt, updated_at := task.updatedAt }
  let afterDb := { afterQueue with tasksDb := afterQueue.tasksDb ++ [row] }
  (task.id, afterDb)

/-- The status query of `src/routes/tasks.ts`:
`SELECT * FROM tasks WHERE id = $1 AND user_id = $2`, of which the route
reads the first row. -/
def getTask (db : List TaskRow) (taskId userId : String) : Option TaskRow :=
  (db.filter (fun row => row.id = taskId && row.user_id = userId)).head?

/-- Agent "Aria" as built by `initializeAgents`. -/
def ariaAgent : Agent :=
  { id := "agent-aria", name := "Aria",
    personality := ⟨"curious", "analytical", "thorough"⟩,
    specialization := ["research", "analysis", "data-mining"],
    status := AgentStatus.idle, currentTask := none, knowledgeBase := [],
    curiosityLevel := 0.9, learningRate := 0.8 }

/-- Agent "Zephyr" as built by `initializeAgents`. -/
def zephyrAgent : Agent :=
  { id := "agent-zephyr", name := "Zephyr",
    personality := ⟨"creative", "intuitive", "innovative"⟩,
    specialization := ["creative-writing", "brainstorming", "ideation"],
    status := AgentStatus.idle, currentTask := none, knowledgeBase := [],
    curiosityLevel := 0.95, learningRate := 0.7 }

/-- Agent "Sage" as built by `initializeAgents`. -/
def sageAgent : Agent :=
  { id := "agent-sage", name := "Sage",
    personality := ⟨"wise", "methodical", "comprehensive"⟩,
    specialization := ["knowledge-synthesis", "education", "explanation"],
    status := AgentStatus.idle, currentTask := none, knowledgeBase := [],
    curiosityLevel := 0.8, learningRate := 0.9 }

/-- Agent "Nova" as built by `initializeAgents`. -/
def novaAgent : Agent :=
  { id := "agent-nova", name := "Nova",
    personality := ⟨"energetic", "quick", "adaptive"⟩,
    specialization := ["real-time-processing", "quick-responses", "multitasking"],
    status := AgentStatus.idle, currentTask := none, knowledgeBase := [],
    curiosityLevel := 0.85, learningRate := 0.85 }

/-- The fixed agent pool built by the constructor of `AgentOrchestrator`
(`initializeAgents`): four agents, all idle with no current task and an
empty knowledge base, keyed in insertion order. -/
def initialAgents : List Agent :=
  [ariaAgent, zephyrAgent, sageAgent, novaAgent]

/-! ## Concrete fixtures

Concrete oracles and states used to evaluate the engine on explicit inputs.
`aiQuiet` models a run where the Wikipedia lookup fails (caught inside
`searchWikipedia`) and every AI call succeeds; `aiRich` models a run where
all three source groups return valid material. -/

def aiQuiet : AIOracle :=
  { now := 1000,
    generateInsights := fun _ => Except.ok "generated insight text",
    synthesizeInformation := fun _ _ => Except.ok "a synthesized answer",
    extractRelatedTopics := fun _ => [],
    extractMainTopic := fun q => q,
    wikipedia := fun _ => Except.error "network unreachable" }

def aiRich : AIOracle :=
  { now := 1000,
    generateInsights := fun _ => Except.ok "generated insight text",
    synthesizeInformation := fun _ _ => Except.ok "a synthesized answer",
    extractRelatedTopics := fun _ => [],
    extractMainTopic := fun q => q,
    wikipedia := fun q =>
      Except.ok { title := q, extract := some "an encyclopedia extract", pageUrl := none } }

def taskT1 : AgentTask :=
  { id := "t1", userId := "u1", prompt := "Explain quantum entanglement",
    context := "", priority := 1, status := TaskStatus.pending,
    createdAt := 500, updatedAt := 500 }

def rowT1 : TaskRow :=
  { id := "t1", user_id := "u1", prompt := "Explain quantum entanglement",
    context := "", result := none, status := TaskStatus.pending,
    created_at := 500, updated_at := 500 }

/-- An agent forced to busy, holding some other task (as after being selected
for an unrelated processing attempt). -/
def busyVariant (a : Agent) : Agent :=
  { a with status := AgentStatus.busy, currentTask := some ("other-" ++ a.id) }

/-- The initial pool with every agent except the given one forced to busy. -/
def busyExcept (keep : String) : List Agent :=
  initialAgents.map (fun a => if a.id = keep then a else busyVariant a)

/-- A reachable-shaped state: three agents are processing other tasks, Aria
is idle, the queue is empty (the tick under scrutiny has already dequeued
`taskT1`), and the task row is persisted as pending. -/
def stOneIdle : OrchState :=
  { agents := busyExcept "agent-aria", queue := [], tasksDb := [rowT1],
    ctxStore := [], events := [] }

/-- A state in which every agent of the pool is busy and `taskT1` is at the
head of the queue. -/
def stAllBusy : OrchState :=
  { agents := initialAgents.map busyVariant, queue := [taskT1], tasksDb := [rowT1],
    ctxStore := [], events := [] }

/-- A fresh state: the initial pool, nothing queued, nothing persisted. -/
def stFresh : OrchState :=
  { agents := initialAgents, queue := [], tasksDb := [], ctxStore := [], events := [] }

/-- Environment for a failing processing attempt: context building and
concept extraction succeed, the curiosity draw stream is exhausted (no
exploration), and the task processor (the text-generation step) always
throws. -/
def envFail : OrchEnv :=
  { ai := aiQuiet,
    buildContext := fun _ _ => Except.ok { userInterests := none },
    extractConcepts := fun _ => ["quantum entanglement"],
    curiosityDraws := [],
    processResult := fun _ _ _ _ => Except.error "AI provider failure",
    extractInterests := fun _ _ => [],
    now := 2000 }

/-- Environment for a successful processing attempt in which the curiosity
draw succeeds once, so the selected agent runs one exploration. -/
def envExplore : OrchEnv :=
  { ai := aiQuiet,
    buildContext := fun _ _ => Except.ok { userInterests := none },
    extractConcepts := fun _ => ["quantum entanglement"],
    curiosityDraws := [true],
    processResult := fun _ _ _ _ => Except.ok "the final task result",
    extractInterests := fun _ _ => ["physics"],
    now := 2000 }

/-- The knowledge item produced by `seekKnowledge aiRich` for the query
"quantum computing": all three source groups are valid, so the confidence is
the 0.95 step. -/
def itemRichW : KnowledgeItem :=
  { query := "quantum computing", topic := "quantum computing",
    content := "a synthesized answer", source := "Multi-source synthesis",
    confidence := 0.95, timestamp := 1000, relatedTopics := [] }

/-! ## Invariant predicates on agent pools -/

/-- One direction of the spec invariant: a busy agent holds a task. -/
abbrev busyImpliesTask (pool : List Agent) : Prop :=
  ∀ a ∈ pool, a.status = AgentStatus.busy → a.currentTask.isSome

/-- The full claimed invariant: `currentTask` is set if and only if the
status is busy. -/
abbrev currentTaskIffBusy (pool : List Agent) : Prop :=
  ∀ a ∈ pool, a.currentTask.isSome ↔ a.status = AgentStatus.busy

/-- No double-assignment: two agents with different ids never hold the same
current task. -/
abbrev noSharedCurrentTask (pool : List Agent) : Prop :=
  ∀ a ∈ pool, ∀ b ∈ pool, a.id ≠ b.id →
    a.currentTask = none ∨ a.currentTask ≠ b.currentTask

/-- Shape of every agent pool reachable during one processing attempt on a
`base` pool: either the base pool itself, or the base pool with one agent
replaced by a value that holds the processed task (or, at release, no task)
and that holds a task whenever it is busy. -/
def goodPool (task : AgentTask) (base : List Agent) (ags : List Agent) : Prop :=
  ags = base ∨
    ∃ aid v, (v.status = AgentStatus.busy → v.currentTask.isSome) ∧
      (v.currentTask = some task.id ∨ v.currentTask = none) ∧
      ags = setAgent base aid v

/-! ## Helper lemmas -/

lemma foldl_score_count (p : String → Bool) (l : List String) (b : ℚ) :
    l.foldl (fun score x => if p x then score + 0.5 else score) b
      = b + (l.countP p : ℚ) * 0.5 := by
  induction l generalizing b with
  | nil => simp
  | cons x xs ih =>
    by_cases h : p x <;>
      simp [List.foldl_cons, List.countP_cons, h, ih] <;> push_cast <;> ring

lemma seekKnowledge_eq_filterMap (ai : AIOracle) (qs : List String) :
    seekKnowledge ai qs = qs.filterMap (fun q => (processOneQuery ai q).toOption) := by
  induction qs with
  | nil => rfl
  | cons q rest ih =>
    cases h : processOneQuery ai q with
    | ok item => simp [seekKnowledge, h, List.filterMap_cons, Except.toOption, ih]
    | error e => simp [seekKnowledge, h, List.filterMap_cons, Except.toOption, ih]

lemma mem_seekKnowledge {ai : AIOracle} {qs : List String} {item : KnowledgeItem}
    (h : item ∈ seekKnowledge ai qs) :
    ∃ q ∈ qs, processOneQuery ai q = Except.ok item := by
  induction qs with
  | nil => simp [seekKnowledge] at h
  | cons q rest ih =>
    cases hq : processOneQuery ai q with
    | ok item0 =>
      rw [seekKnowledge, hq] at h
      rcases List.mem_cons.mp h with h0 | h0
      · exact ⟨q, List.mem_cons_self q rest, by rw [hq, h0]⟩
      · obtain ⟨q1, hq1, hok⟩ := ih h0
        exact ⟨q1, List.mem_cons_of_mem q hq1, hok⟩
    | error e =>
      rw [seekKnowledge, hq] at h
      obtain ⟨q1, hq1, hok⟩ := ih h
      exact ⟨q1, List.mem_cons_of_mem q hq1, hok⟩

lemma synthesizeKnowledge_confidence {ai : AIOracle} {q : String}
    {srcs : List (Option Source)} {item : KnowledgeItem}
    (h : synthesizeKnowledge ai q srcs = Except.ok item) :
    item.confidence = calculateConfidence (validOf srcs) := by
  rw [synthesizeKnowledge] at h
  cases hs : ai.synthesizeInformation q (validOf srcs) with
  | ok content0 =>
    rw [hs] at h
    simp only [Except.bind, Except.pure] at h
    cases h
    rfl
  | error e =>
    rw [hs] at h
    simp [Except.bind] at h

lemma synthesizeKnowledge_query {ai : AIOracle} {q : String}
    {srcs : List (Option Source)} {item : KnowledgeItem}
    (h : synthesizeKnowledge ai q srcs = Except.ok item) :
    item.query = q := by
  rw [synthesizeKnowledge] at h
  cases hs : ai.synthesizeInformation q (validOf srcs) with
  | ok content0 =>
    rw [hs] at h
    simp only [Except.bind, Except.pure] at h
    cases h
    rfl
  | error e =>
    rw [hs] at h
    simp [Except.bind] at h

lemma calculateConfidence_eq_confStep (l : List Source) :
    calculateConfidence l = confStep l.length := rfl

lemma head_insertByScore (x y : Agent × ℚ) (ys : List (Agent × ℚ)) :
    (insertByScore x (y :: ys)).head? =
      if y.2 ≤ x.2 then some x else some y := by
  rw [insertByScore]
  by_cases hle : y.2 ≤ x.2
  · rw [if_pos hle, if_pos hle]; rfl
  · rw [if_neg hle, if_neg hle]; rfl

lemma head_sortByScoreDesc (l : List (Agent × ℚ)) :
    (sortByScoreDesc l).head? = firstMaxScored l := by
  induction l with
  | nil => rfl
  | cons x xs ih =>
    rw [sortByScoreDesc, firstMaxScored, ← ih]
    cases hxs : sortByScoreDesc xs with
    | nil => rfl
    | cons y ys =>
      rw [head_insertByScore]
      rfl

lemma selectAgent_eq_firstMax (agents : List Agent) (task : AgentTask) :
    selectAgent agents task =
      (firstMaxScored ((agents.filter (fun a => a.status = AgentStatus.idle)).map
        (fun a => (a, calculateAgentScore a task)))).map Prod.fst := by
  rw [selectAgent]
  by_cases h : (agents.filter (fun a => a.status = AgentStatus.idle)).length = 0
  · rw [List.length_eq_zero] at h
    simp [h, firstMaxScored]
  · simp only [h, if_false, head_sortByScoreDesc]

lemma firstMaxScored_mem {l : List (Agent × ℚ)} {x : Agent × ℚ}
    (h : firstMaxScored l = some x) : x ∈ l := by
  induction l with
  | nil => simp [firstMaxScored] at h
  | cons y ys ih =>
    rw [firstMaxScored] at h
    cases hy : firstMaxScored ys with
    | none =>
      rw [hy] at h
      have h' : some y = some x := h
      cases h'
      exact List.mem_cons_self _ _
    | some z =>
      rw [hy] at h
      have h' : (if z.2 ≤ y.2 then some y else some z) = some x := h
      by_cases hle : z.2 ≤ y.2
      · rw [if_pos hle] at h'; cases h'; exact List.mem_cons_self _ _
      · rw [if_neg hle] at h'; cases h'; exact List.mem_cons_of_mem _ (ih hy)

lemma firstMaxScored_eq_none {l : List (Agent × ℚ)} :
    firstMaxScored l = none ↔ l = [] := by
  cases l with
  | nil => simp [firstMaxScored]
  | cons x xs =>
    rw [firstMaxScored]
    constructor
    · intro h
      exfalso
      cases hy : firstMaxScored xs with
      | none =>
        rw [hy] at h
        exact Option.some_ne_none x h
      | some z =>
        rw [hy] at h
        have h' : (if z.2 ≤ x.2 then some x else some z) = none := h
        by_cases hle : z.2 ≤ x.2
        · rw [if_pos hle] at h'; exact Option.some_ne_none x h'
        · rw [if_neg hle] at h'; exact Option.some_ne_none z h'
    · intro h
      exact absurd h (List.cons_ne_nil x xs)

lemma firstMaxScored_is_max :
    ∀ {l : List (Agent × ℚ)} {x : Agent × ℚ},
      firstMaxScored l = some x → ∀ y ∈ l, y.2 ≤ x.2 := by
  intro l
  induction l with
  | nil => intro x h; simp [firstMaxScored] at h
  | cons y ys ih =>
    intro x h
    rw [firstMaxScored] at h
    intro z hz
    cases hy : firstMaxScored ys with
    | none =>
      rw [hy] at h
      have h' : some y = some x := h
      cases h'
      have hnil := firstMaxScored_eq_none.mp hy
      subst hnil
      rcases List.mem_cons.mp hz with hz | hz
      · subst hz; exact le_refl _
      · simp at hz
    | some w =>
      rw [hy] at h
      have h' : (if w.2 ≤ y.2 then some y else some w) = some x := h
      rcases List.mem_cons.mp hz with hz | hz
      · subst hz
        by_cases hle : w.2 ≤ z.2
        · rw [if_pos hle] at h'; cases h'; exact le_refl _
        · rw [if_neg hle] at h'; cases h'; exact le_of_not_le hle
      · have hw := ih hy z hz
        by_cases hle : w.2 ≤ y.2
        · rw [if_pos hle] at h'; cases h'; exact hw.trans hle
        · rw [if_neg hle] at h'; cases h'; exact hw

lemma updateAgentKnowledge_fields (ai : AIOracle) :
    ∀ (draws : List Bool) (agent : Agent) (knowledge : List KnowledgeItem),
      ((updateAgentKnowledge ai draws agent knowledge).1.currentTask = agent.currentTask ∧
       (updateAgentKnowledge ai draws agent knowledge).1.id = agent.id) ∧
      ∀ a ∈ (updateAgentKnowledge ai draws agent knowledge).2.1,
        a.currentTask = agent.currentTask ∧ a.id = agent.id := by
  intro draws
  induction draws with
  | nil =>
    intro agent knowledge
    refine ⟨⟨rfl, rfl⟩, ?_⟩
    intro a ha
    exact absurd ha (List.not_mem_nil a)
  | cons d rest ih =>
    intro agent knowledge
    cases d with
    | false =>
      refine ⟨⟨rfl, rfl⟩, ?_⟩
      intro a ha
      exact absurd ha (List.not_mem_nil a)
    | true =>
      have hx := ih ({ mergeKnowledge ai.now agent knowledge with
          status := AgentStatus.learning })
        (seekKnowledge ai (knowledge.map (fun item =>
          "Tell me more about " ++ item.topic ++ " and its implications")))
      refine ⟨⟨?_, ?_⟩, ?_⟩
      · exact hx.1.1
      · exact hx.1.2
      · intro a ha
        rcases List.mem_cons.mp ha with rfl | ha2
        · exact ⟨rfl, rfl⟩
        · rcases List.mem_append.mp ha2 with ha3 | ha4
          · exact hx.2 a ha3
          · rcases List.mem_singleton.mp ha4 with rfl
            exact ⟨hx.1.1, hx.1.2⟩

lemma mem_setAgent {agents : List Agent} {aid : String} {v a : Agent}
    (h : a ∈ setAgent agents aid v) : a = v ∨ (a ∈ agents ∧ a.id ≠ aid) := by
  rw [setAgent] at h
  obtain ⟨b, hb, hba⟩ := List.mem_map.mp h
  by_cases hid : b.id = aid
  · left; rw [← hba, if_pos hid]
  · right
    rw [← hba, if_neg hid]
    exact ⟨hb, hid⟩

lemma setAgent_invariant {base : List Agent} {task : AgentTask} {aid : String} {v : Agent}
    (h1 : busyImpliesTask base) (h2 : noSharedCurrentTask base)
    (h3 : ∀ a ∈ base, a.currentTask ≠ some task.id)
    (hvb : v.status = AgentStatus.busy → v.currentTask.isSome)
    (hvt : v.currentTask = some task.id ∨ v.currentTask = none) :
    busyImpliesTask (setAgent base aid v) ∧ noSharedCurrentTask (setAgent base aid v) := by
  constructor
  · intro a ha hb
    rcases mem_setAgent ha with rfl | ⟨ha', _⟩
    · exact hvb hb
    · exact h1 a ha' hb
  · intro a ha b hbm hid
    rcases mem_setAgent ha with rfl | ⟨ha', _⟩
    · rcases mem_setAgent hbm with rfl | ⟨hb', _⟩
      · exact absurd rfl hid
      · rcases hvt with hv | hv
        · right
          rw [hv]
          exact fun hc => h3 b hb' hc.symm
        · left; exact hv
    · rcases mem_setAgent hbm with rfl | ⟨hb', _⟩
      · rcases hvt with hv | hv
        · right
          rw [hv]
          exact h3 a ha'
        · cases hact : a.currentTask with
          | none => left; rfl
          | some t =>
            right
            rw [hv]
            simp
      · exact h2 a ha' b hb' hid

lemma goodPool_invariant {task : AgentTask} {base ags : List Agent}
    (h1 : busyImpliesTask base) (h2 : noSharedCurrentTask base)
    (h3 : ∀ a ∈ base, a.currentTask ≠ some task.id)
    (hg : goodPool task base ags) :
    busyImpliesTask ags ∧ noSharedCurrentTask ags := by
  rcases hg with rfl | ⟨aid, v, hvb, hvt, rfl⟩
  · exact ⟨h1, h2⟩
  · exact setAgent_invariant h1 h2 h3 hvb hvt

lemma setAgent_setAgent {base : List Agent} {aid : String} {v w : Agent}
    (hv : v.id = aid) :
    setAgent (setAgent base aid v) aid w = setAgent base aid w := by
  simp only [setAgent, List.map_map]
  congr 1
  funext a
  by_cases h : a.id = aid
  · simp [Function.comp, h, hv]
  · simp [Function.comp, h]

lemma processTask_pools (env : OrchEnv) (task : AgentTask) (st : OrchState) :
    (∀ s ∈ (processTask env task st).2, goodPool task st.agents s.agents) ∧
    goodPool task st.agents (processTask env task st).1.agents := by
  simp only [processTask]
  split
  · constructor
    · intro s hs
      rcases List.mem_singleton.mp hs with rfl
      exact Or.inl rfl
    · exact Or.inl rfl
  · next selected hsel =>
    have hst1 : goodPool task st.agents
        (setAgent st.agents selected.id
          { selected with status := AgentStatus.busy, currentTask := some task.id }) :=
      Or.inr ⟨selected.id,
        { selected with status := AgentStatus.busy, currentTask := some task.id },
        fun _ => rfl, Or.inl rfl, rfl⟩
    split
    · constructor
      · intro s hs
        rcases List.mem_cons.mp hs with rfl | h1
        · exact Or.inl rfl
        · rcases List.mem_singleton.mp h1 with rfl
          exact hst1
      · exact hst1
    · next ctx hctx =>
      have huk := updateAgentKnowledge_fields env.ai env.curiosityDraws
        { selected with status := AgentStatus.busy, currentTask := some task.id }
        (seekKnowledge env.ai (generateKnowledgeQueries env task.prompt ctx))
      have hkp : ∀ a ∈ (updateAgentKnowledge env.ai env.curiosityDraws
            { selected with status := AgentStatus.busy, currentTask := some task.id }
            (seekKnowledge env.ai (generateKnowledgeQueries env task.prompt ctx))).2.1,
          goodPool task st.agents (setAgent st.agents selected.id a) := by
        intro a ha
        have hct := (huk.2 a ha).1
        exact Or.inr ⟨selected.id, a, fun _ => by rw [hct]; rfl, Or.inl hct, rfl⟩
      have hst2 : goodPool task st.agents
          (setAgent st.agents selected.id
            (updateAgentKnowledge env.ai env.curiosityDraws
              { selected with status := AgentStatus.busy, currentTask := some task.id }
              (seekKnowledge env.ai (generateKnowledgeQueries env task.prompt ctx))).1) := by
        have hct := huk.1.1
        exact Or.inr ⟨selected.id,
          (updateAgentKnowledge env.ai env.curiosityDraws
            { selected with status := AgentStatus.busy, currentTask := some task.id }
            (seekKnowledge env.ai (generateKnowledgeQueries env task.prompt ctx))).1,
          fun _ => by rw [hct]; rfl, Or.inl hct, rfl⟩
      split
      · constructor
        · intro s hs
          rcases List.mem_append.mp hs with h01k | h2
          · rcases List.mem_append.mp h01k with h01 | hk
            · rcases List.mem_cons.mp h01 with rfl | h1
              · exact Or.inl rfl
              · rcases List.mem_singleton.mp h1 with rfl
                exact hst1
            · obtain ⟨a, ha, rfl⟩ := List.mem_map.mp hk
              exact hkp a ha
          · rcases List.mem_singleton.mp h2 with rfl
            exact hst2
        · exact hst2
      · next result hpr =>
        have hst6 : goodPool task st.agents
            (setAgent st.agents selected.id
              { (updateAgentKnowledge env.ai env.curiosityDraws
                  { selected with status := AgentStatus.busy, currentTask := some task.id }
                  (seekKnowledge env.ai (generateKnowledgeQueries env task.prompt ctx))).1 with
                status := AgentStatus.idle, currentTask := none }) :=
          Or.inr ⟨selected.id,
            { (updateAgentKnowledge env.ai env.curiosityDraws
                { selected with status := AgentStatus.busy, currentTask := some task.id }
                (seekKnowledge env.ai (generateKnowledgeQueries env task.prompt ctx))).1 with
              status := AgentStatus.idle, currentTask := none },
            fun h => AgentStatus.noConfusion h, Or.inr rfl, rfl⟩
        constructor
        · intro s hs
          rcases List.mem_append.mp hs with h01k | h26
          · rcases List.mem_append.mp h01k with h01 | hk
            · rcases List.mem_cons.mp h01 with rfl | h1
              · exact Or.inl rfl
              · rcases List.mem_singleton.mp h1 with rfl
                exact hst1
            · obtain ⟨a, ha, rfl⟩ := List.mem_map.mp hk
              exact hkp a ha
          · rcases List.mem_cons.mp h26 with rfl | h3
            · exact hst2
            · rcases List.mem_cons.mp h3 with rfl | h4
              · exact hst2
              · rcases List.mem_cons.mp h4 with rfl | h5
                · exact hst2
                · rcases List.mem_cons.mp h5 with rfl | h6
                  · exact hst2
                  · rcases List.mem_singleton.mp h6 with rfl
                    show goodPool task st.agents (setAgent _ selected.id _)
                    rw [setAgent_setAgent huk.1.2]
                    exact hst6
        · show goodPool task st.agents (setAgent _ selected.id _)
          rw [setAgent_setAgent huk.1.2]
          exact hst6

lemma selectAgent_mem_idle {agents : List Agent} {task : AgentTask} {a : Agent}
    (h : selectAgent agents task = some a) :
    a ∈ agents ∧ a.status = AgentStatus.idle := by
  rw [selectAgent_eq_firstMax] at h
  cases hf : firstMaxScored ((agents.filter (fun x => x.status = AgentStatus.idle)).map
      (fun x => (x, calculateAgentScore x task))) with
  | none => rw [hf] at h; cases h
  | some pair =>
    rw [hf] at h
    cases h
    have hmem := firstMaxScored_mem hf
    obtain ⟨b, hb, hpair⟩ := List.mem_map.mp hmem
    have hb' := List.mem_filter.mp hb
    refine ⟨?_, ?_⟩
    · rw [← hpair]; exact hb'.1
    · rw [← hpair]; exact of_decide_eq_true hb'.2

/-! ## Claim theorems -/

/-- C5: for every agent and task, the selection score equals
0.3·curiosityLevel + 0.2·learningRate + 0.5·specializationMatchCount, where
the match count counts, over the specialization tags of the agent, each tag of
which some space-delimited token of the lowercased task prompt is a
substring. -/
theorem C5_score_formula (agent : Agent) (task : AgentTask) :
    calculateAgentScore agent task =
      0.3 * agent.curiosityLevel + 0.2 * agent.learningRate +
        0.5 * (specializationMatchCount agent task : ℚ) := by
  simp only [calculateAgentScore, specializationMatchCount]
  rw [foldl_score_count]
  ring

/-- C7: `seekKnowledge` processes each query independently: the result is
exactly the per-query results of the successful queries in order (failing
queries are omitted), and the batch splits as the concatenation of the
results of any two sub-batches, so a failure on one query never aborts the
others. -/
theorem C7_query_isolation (ai : AIOracle) (qs : List String) :
    seekKnowledge ai qs = qs.filterMap (fun q => (processOneQuery ai q).toOption) ∧
    ∀ pre post : List String,
      seekKnowledge ai (pre ++ post) = seekKnowledge ai pre ++ seekKnowledge ai post := by
  refine ⟨seekKnowledge_eq_filterMap ai qs, ?_⟩
  intro pre post
  rw [seekKnowledge_eq_filterMap, seekKnowledge_eq_filterMap, seekKnowledge_eq_filterMap,
    List.filterMap_append]

/-- C9: agent selection is a pure function of the pool state and the task
(hence two runs on identical inputs return identical results), and it equals
the deterministic rule "first agent in pool iteration order among the idle
agents attaining the maximal score" — ties between equal scores are broken
by pool iteration order, because the ECMAScript sort is stable. -/
theorem C9_selection_deterministic (agents : List Agent) (task : AgentTask) :
    selectAgent agents task =
      (firstMaxScored ((agents.filter (fun a => a.status = AgentStatus.idle)).map
        (fun a => (a, calculateAgentScore a task)))).map Prod.fst :=
  selectAgent_eq_firstMax agents task

/-- C10: every task created through `submitTask` carries priority exactly 1
no matter what the caller supplied, and the `INSERT` that persists the task
does not include the priority column. -/
theorem C10_priority_fixed (env : OrchEnv) (userId prompt context newTaskId : String)
    (st : OrchState) :
    (∃ t : AgentTask,
      (submitTask env userId prompt context newTaskId st).2.queue = st.queue ++ [t] ∧
      t.priority = 1 ∧ t.id = (submitTask env userId prompt context newTaskId st).1) ∧
    "priority" ∉ tasksInsertColumns := by
  exact ⟨⟨_, rfl, rfl, rfl⟩, by decide⟩

/-- C6: every knowledge item returned by `seekKnowledge` originates from one
of the input queries (its `query` field is that query) and has its
confidence given by the step function of the number of valid retrieved
sources of ITS OWN query: 0 sources gives 0.1, one gives 0.6, two give 0.8,
three or more give 0.95 (see `confStep` and `numValidSources`). -/
theorem C6_confidence_step (ai : AIOracle) (qs : List String) (item : KnowledgeItem)
    (h : item ∈ seekKnowledge ai qs) :
    item.query ∈ qs ∧
    item.confidence = confStep (numValidSources ai item.query) := by
  obtain ⟨q, hq, hok⟩ := mem_seekKnowledge h
  have hok' : synthesizeKnowledge ai q (gatheredSources ai q) = Except.ok item := hok
  have hquery : item.query = q := synthesizeKnowledge_query hok'
  rw [hquery]
  refine ⟨hq, ?_⟩
  rw [synthesizeKnowledge_confidence hok', calculateConfidence_eq_confStep]
  rfl

/-- C6 witness: with all three source groups valid for the single query,
the returned item carries that query and its confidence sits at the
three-or-more step of the valid-source count of that query. -/
theorem C6_witness :
    itemRichW ∈ seekKnowledge aiRich ["quantum computing"] ∧
    itemRichW.query ∈ ["quantum computing"] ∧
    itemRichW.confidence = confStep (numValidSources aiRich itemRichW.query) := by
  have hm : itemRichW ∈ seekKnowledge aiRich ["quantum computing"] := by
    have he : seekKnowledge aiRich ["quantum computing"] = [itemRichW] := rfl
    rw [he]
    exact List.mem_singleton.mpr rfl
  exact ⟨hm, C6_confidence_step aiRich ["quantum computing"] itemRichW hm⟩

/-- C8: `submitTask` returns the task id, the created task is enqueued with
status pending, and the persisted row is observable through the status query
with status pending (assuming the generated id is fresh). -/
theorem C8_submit_pending (env : OrchEnv) (userId prompt context newTaskId : String)
    (st : OrchState) (hfresh : ∀ r ∈ st.tasksDb, r.id ≠ newTaskId) :
    (submitTask env userId prompt context newTaskId st).1 = newTaskId ∧
    (∃ t ∈ (submitTask env userId prompt context newTaskId st).2.queue,
      t.id = newTaskId ∧ t.status = TaskStatus.pending) ∧
    ∃ row, getTask (submitTask env userId prompt context newTaskId st).2.tasksDb
        newTaskId userId = some row ∧ row.status = TaskStatus.pending := by
  refine ⟨rfl, ⟨_, List.mem_append.mpr (Or.inr (List.mem_singleton.mpr rfl)), rfl, rfl⟩, ?_⟩
  refine ⟨{ id := newTaskId, user_id := userId, prompt := prompt, context := context, result := none, status := TaskStatus.pending, created_at := env.now, updated_at := env.now }, ?_, rfl⟩
  show ((st.tasksDb ++ [_]).filter _).head? = _
  rw [List.filter_append]
  have h1 : st.tasksDb.filter
      (fun r => r.id = newTaskId && r.user_id = userId) = [] := by
    rw [List.filter_eq_nil]
    intro r hr
    simp [hfresh r hr]
  rw [h1]
  simp

/-- C8 witness: a concrete submission into a fresh store. -/
theorem C8_witness :
    (submitTask envFail "u1" "write a poem" "" "task-42" stFresh).1 = "task-42" ∧
    (∃ t ∈ (submitTask envFail "u1" "write a poem" "" "task-42" stFresh).2.queue,
      t.id = "task-42" ∧ t.status = TaskStatus.pending) ∧
    ∃ row, getTask (submitTask envFail "u1" "write a poem" "" "task-42" stFresh).2.tasksDb
        "task-42" "u1" = some row ∧ row.status = TaskStatus.pending :=
  C8_submit_pending envFail "u1" "write a poem" "" "task-42" stFresh
    (fun r hr => absurd hr (List.not_mem_nil r))

/-- C1: the code bug exhibited — at a concrete failing processing attempt
(three agents busy with other tasks, Aria idle and selected, the
text-generation processing step throws, no curiosity exploration), the
selected agent is NOT released when processing ends: after `processTask`
returns, Aria is still busy with `currentTask = t1`, because the `catch`
block of `processTask` never resets the agent. The claim (and the spec)
require status idle and a cleared `currentTask` here. -/
theorem C1_agent_not_released_on_failure :
    (processTask envFail taskT1 stOneIdle).1.agents.map
        (fun a => (a.id, a.status, a.currentTask)) =
      [("agent-aria", AgentStatus.busy, some "t1"),
       ("agent-zephyr", AgentStatus.busy, some "other-agent-zephyr"),
       ("agent-sage", AgentStatus.busy, some "other-agent-sage"),
       ("agent-nova", AgentStatus.busy, some "other-agent-nova")] := by decide

/-- C2 counterexample: at a concrete tick with a dequeued task and an
all-busy pool, the claim fails: a `task-error` event IS published on the
channel of the user (the no-agent throw is funnelled into the generic catch
block), and the dequeued task is NOT retrievable any more (the queue is
empty afterwards; nothing re-enqueues it). -/
theorem C2_counterexample_busy_tick :
    ¬ ((tick envFail stAllBusy).1.events = stAllBusy.events) ∧
    "t1" ∉ (tick envFail stAllBusy).1.queue.map AgentTask.id := by decide

/-- C2 amended: when a task is dequeued and every agent is busy, no agent
state changes and the persisted tasks are untouched (the task row stays
pending), but the dequeued task is removed from the queue without being
re-enqueued, and exactly one `task-error` event with the message "No
suitable agent available" is published on the channel of the submitting user. -/
theorem C2_amended_busy_tick (env : OrchEnv) (st : OrchState) (task : AgentTask)
    (rest : List AgentTask) (hq : st.queue = task :: rest)
    (hb : ∀ a ∈ st.agents, a.status = AgentStatus.busy) :
    (tick env st).1.agents = st.agents ∧
    (tick env st).1.tasksDb = st.tasksDb ∧
    (tick env st).1.queue = rest ∧
    (tick env st).1.events =
      st.events ++ [SocketEvent.taskError task.userId task.id "No suitable agent available"] := by
  have hnone : selectAgent st.agents task = none := by
    rw [selectAgent]
    have hf : st.agents.filter (fun a => a.status = AgentStatus.idle) = [] := by
      rw [List.filter_eq_nil]
      intro a ha
      simp [hb a ha]
    simp [hf]
  have ht : tick env st = processTask env task { st with queue := rest } := by
    unfold tick
    rw [hq]
  have hp : processTask env task { st with queue := rest } =
      (catchBlock { st with queue := rest } task "No suitable agent available",
        [{ st with queue := rest }]) := by
    unfold processTask
    rw [show selectAgent ({ st with queue := rest } : OrchState).agents task = none from hnone]
  rw [ht, hp]
  exact ⟨rfl, rfl, rfl, rfl⟩

/-- C2 witness: the amended behaviour at the concrete all-busy state. -/
theorem C2_witness :
    (tick envFail stAllBusy).1.agents = stAllBusy.agents ∧
    (tick envFail stAllBusy).1.tasksDb = stAllBusy.tasksDb ∧
    (tick envFail stAllBusy).1.queue = [] ∧
    (tick envFail stAllBusy).1.events =
      stAllBusy.events ++ [SocketEvent.taskError "u1" "t1" "No suitable agent available"] :=
  C2_amended_busy_tick envFail stAllBusy taskT1 [] rfl (by decide)

/-- C3 counterexample: at a concrete failing processing attempt the
persisted status is NOT set to failed — the status query still reports
pending after the attempt, because the catch block never updates the row
(`storeTaskResult` runs only on the success path and writes "completed"). -/
theorem C3_counterexample_not_marked_failed :
    ¬ ((getTask (processTask envFail taskT1 stOneIdle).1.tasksDb "t1" "u1").map TaskRow.status
        = some TaskStatus.failed) := by decide

/-- C3 amended: for every processing attempt that fails at the processing
step after agent selection, exactly one `task-error` event carrying the
error message is published on the channel of the submitting user, and the
persisted row is left entirely unchanged (in particular its status is NOT
set to failed). -/
theorem C3_amended_failure_path (env : OrchEnv) (task : AgentTask) (st : OrchState)
    (selected : Agent) (ctx : Ctx) (msg : String)
    (hsel : selectAgent st.agents task = some selected)
    (hctx : env.buildContext task.userId task.prompt = Except.ok ctx)
    (hfail : ∀ t c g a, env.processResult t c g a = Except.error msg) :
    (processTask env task st).1.tasksDb = st.tasksDb ∧
    (processTask env task st).1.events =
      st.events ++ [SocketEvent.taskError task.userId task.id msg] := by
  simp only [processTask, hsel, hctx, hfail]
  exact ⟨rfl, rfl⟩

/-- C3 witness: the amended behaviour at the concrete failing attempt. -/
theorem C3_witness :
    (processTask envFail taskT1 stOneIdle).1.tasksDb = stOneIdle.tasksDb ∧
    (processTask envFail taskT1 stOneIdle).1.events =
      stOneIdle.events ++ [SocketEvent.taskError "u1" "t1" "AI provider failure"] :=
  C3_amended_failure_path envFail taskT1 stOneIdle ariaAgent { userInterests := none }
    "AI provider failure" rfl rfl (fun _ _ _ _ => rfl)

/-- C4 counterexample: the claimed invariant "currentTask is set iff status
is busy" is violated in a reachable state: during a processing attempt in
which the curiosity draw succeeds, the curious-exploration path sets the
selected agent to learning and then back to idle while `currentTask` is
still set (the task processor has not yet returned), so the trace of the attempt
contains an observable pool state with an idle agent holding a task. -/
theorem C4_counterexample_currentTask_not_iff_busy :
    ¬ ∀ s ∈ (processTask envExplore taskT1 stOneIdle).2,
        currentTaskIffBusy s.agents ∧ noSharedCurrentTask s.agents := by decide

/-- C4 amended: in every state observable during (and at the end of) a
processing attempt started from a pool in which busy agents hold tasks, no
two agents share a current task, and the processed task id is fresh, the
following holds: every busy agent holds a task, and no two agents with
distinct ids hold the same current task. (The converse direction of the
claimed iff is false — an agent can hold `currentTask` while learning or
idle during curious exploration, see the counterexample.) -/
theorem C4_amended_invariant (env : OrchEnv) (task : AgentTask) (st : OrchState)
    (h1 : busyImpliesTask st.agents) (h2 : noSharedCurrentTask st.agents)
    (h3 : ∀ a ∈ st.agents, a.currentTask ≠ some task.id) :
    (∀ s ∈ (processTask env task st).2,
      busyImpliesTask s.agents ∧ noSharedCurrentTask s.agents) ∧
    busyImpliesTask (processTask env task st).1.agents ∧
    noSharedCurrentTask (processTask env task st).1.agents := by
  obtain ⟨htr, hfin⟩ := processTask_pools env task st
  exact ⟨fun s hs => goodPool_invariant h1 h2 h3 (htr s hs),
    (goodPool_invariant h1 h2 h3 hfin).1, (goodPool_invariant h1 h2 h3 hfin).2⟩

/-- C4 witness: the amended invariant at the end of the concrete exploring
attempt. -/
theorem C4_witness :
    busyImpliesTask (processTask envExplore taskT1 stOneIdle).1.agents ∧
    noSharedCurrentTask (processTask envExplore taskT1 stOneIdle).1.agents := by
  have h := C4_amended_invariant envExplore taskT1 stOneIdle (by decide) (by decide) (by decide)
  exact ⟨h.2.1, h.2.2⟩

end Agentcy
